import Mathlib

/-!
Verification development for the BPCVRP sequential pallet-grouping heuristic.

The definitions below are a shallow embedding of the two heuristic modules
`bpcsdvrp_sequential.py` and `bpcvrp_grouped_heuristic.py`:

* machine integers are modelled as `Int` (Python has arbitrary-precision
  integers, so no overflow wrapping is needed);
* the external MiniZinc solver calls are abstracted as explicit function
  arguments (`solver : List Int → SolveResult`, `vrpSolve : VRPInstance →
  SolveResult`), so every pipeline stage is a pure function of its inputs
  plus the oracle, exactly as in the source;
* Python floor division `//` and modulo `%` are `Int.fdiv` / `Int.fmod`;
* `math.ceil(a / float(b))` is the integer ceiling, written as
  `(a + b - 1) / b` (Euclidean division), which agrees with the exact
  ceiling for every positive divisor `b`;
* wall-clock times are carried as opaque `Int` data (the only fact the code
  establishes about them is the literal `0.0` on the empty short-circuit,
  modelled as `0`).
-/

namespace BPCVRP

/-- Relevant fields of the open solver solution mapping (`res.solution` in
the Python `SolveResult`): the `nBins` key, the per-item bin assignment `b`,
and the `objective` key probed by `_extract_bpp_objective`. -/
structure MZSolution where
  nBins : Option Int
  b : Option (List Int)
  objVal : Option Int
deriving DecidableEq

/-- Embedding of `minizinc_runner.SolveResult` (status, has_solution,
objective, solution fields, elapsed time). -/
structure SolveResult where
  status : String
  has_solution : Bool
  objective : Option Int
  solution : Option MZSolution
  time : Int
deriving DecidableEq

/-- Embedding of the `CustomerPacking` dataclass of `bpcsdvrp_sequential.py`. -/
structure CustomerPacking where
  customer : Nat
  item_sizes : List Int
  pallets : Int
  bpp_status : String
  bpp_time : Int
  bin_of_item : Option (List Int)
  pallets_items : Option (List (List Int))
deriving DecidableEq

/-- One entry of `full_trip_routes` in `group_pallet_demands`. -/
structure FullTripRoute where
  customer : Nat
  trips : Int
  pallets_per_trip : Int
  trip_cost : Int
  total_cost : Int
  route : List Nat
deriving DecidableEq

/-- Embedding of the `GroupingResult` dataclass.  The Python `full_trips`
dict (customer → trip count, insertion-ordered, each customer inserted at
most once) is modelled as an association list. -/
structure GroupingResult where
  fixed_cost : Int
  full_trips : List (Nat × Int)
  full_trip_routes : List FullTripRoute
  remaining_customers : List Nat
  remaining_demands : List Int
  orig_customer_of_node : List Nat
deriving DecidableEq

/-- The accumulator state at the top of the `group_pallet_demands` loop. -/
def emptyGroupingResult : GroupingResult :=
  { fixed_cost := 0, full_trips := [], full_trip_routes := [],
    remaining_customers := [], remaining_demands := [],
    orig_customer_of_node := [] }

/-- Embedding of `VRPInstance` (the fields used by the reduced instance). -/
structure VRPInstance where
  N : Nat
  Capacity : Int
  Demand : List Int
  Distance : List (List Int)
deriving DecidableEq

/-- `_extract_nbins` from `bpcsdvrp_sequential.py`: prefer the `nBins`
solution field, else fall back to the objective. -/
def extract_nbins (res : SolveResult) : Option Int :=
  match res.solution with
  | some s =>
    match s.nBins with
    | some v => some v
    | none => res.objective
  | none => res.objective

/-- `_reconstruct_pallets`: convert a 1-based bin assignment into explicit
pallets, pallet `g` holding the 1-based indices of the items assigned to it
(items with out-of-range bin indices are dropped, as in the source). -/
def reconstruct_pallets (bin_of_item : List Int) (pallets : Int) : List (List Int) :=
  (List.range pallets.toNat).map (fun g =>
    bin_of_item.enum.filterMap (fun p =>
      if p.2 = (g : Int) + 1 then some (p.1 + 1) else none))

/-- Integer ceiling `⌈a / b⌉` for positive `b`, as computed by
`int(ceil(a / float(b)))` in the source. -/
def ceil_div (a b : Int) : Int := (a + b - 1) / b

/-- The `items_ub` fallback of `solve_bpp_for_customer`: one pallet per
item. -/
def items_ub_fallback (item_sizes : List Int) : Int := (item_sizes.length : Int)

/-- The `volume_lb` fallback: `ceil(sum(item_sizes) / bin_capacity)`. -/
def volume_lb_fallback (item_sizes : List Int) (bin_capacity : Int) : Int :=
  ceil_div item_sizes.sum bin_capacity

/-- Fallback dispatch of the sequential `solve_bpp_for_customer`: the string
`"volume_lb"` selects the volume lower bound, every other string selects
`items_ub`. -/
def fallback_pallets (fallback : String) (item_sizes : List Int)
    (bin_capacity : Int) : Int :=
  if fallback = "volume_lb" then volume_lb_fallback item_sizes bin_capacity
  else items_ub_fallback item_sizes

/-- Embedding of `solve_bpp_for_customer` from `bpcsdvrp_sequential.py`.
The MiniZinc run (`runner.solve_instance`) is abstracted as the oracle
`solver`, mapping the item sizes to a `SolveResult`. -/
def solve_bpp_for_customer (solver : List Int → SolveResult) (customer : Nat)
    (item_sizes : List Int) (bin_capacity : Int) (fallback : String) :
    CustomerPacking :=
  if item_sizes = [] then
    { customer := customer, item_sizes := [], pallets := 0,
      bpp_status := "SKIPPED_EMPTY", bpp_time := 0,
      bin_of_item := some [], pallets_items := some [] }
  else
    let res := solver item_sizes
    match extract_nbins res with
    | none =>
      { customer := customer, item_sizes := item_sizes,
        pallets := fallback_pallets fallback item_sizes bin_capacity,
        bpp_status := res.status ++ " (fallback=" ++ fallback ++ ")",
        bpp_time := res.time, bin_of_item := none, pallets_items := none }
    | some nbins =>
      let bin_of_item := Option.bind res.solution (fun s => s.b)
      { customer := customer, item_sizes := item_sizes, pallets := nbins,
        bpp_status := res.status, bpp_time := res.time,
        bin_of_item := bin_of_item,
        pallets_items := bin_of_item.map (fun bs => reconstruct_pallets bs nbins) }

/-- Body of the `group_pallet_demands` loop for a single customer `c` with
pallet count `p`, updating the accumulated `GroupingResult`. -/
def group_step (D : Nat → Nat → Int) (Q : Int)
    (treat_equal_capacity_as_fixed : Bool) (c : Nat) (p : Int)
    (acc : GroupingResult) : GroupingResult :=
  if p ≤ Q ∧ ¬(treat_equal_capacity_as_fixed = true ∧ p = Q) then
    if 0 < p then
      { acc with remaining_customers := acc.remaining_customers ++ [c],
                 remaining_demands := acc.remaining_demands ++ [p],
                 orig_customer_of_node := acc.orig_customer_of_node ++ [c] }
    else acc
  else if p = 0 then acc
  else
    let trips0 : Int := if 0 < Q then Int.fdiv p Q else 0
    let rem0 : Int := if 0 < Q then Int.fmod p Q else p
    let trips : Int :=
      if treat_equal_capacity_as_fixed = true ∧ p = Q then 1 else trips0
    let rem : Int :=
      if treat_equal_capacity_as_fixed = true ∧ p = Q then 0 else rem0
    let trip_cost : Int := D 0 c + D c 0
    let acc1 : GroupingResult :=
      if 0 < trips then
        { acc with fixed_cost := acc.fixed_cost + trips * trip_cost,
                   full_trips := acc.full_trips ++ [(c, trips)],
                   full_trip_routes := acc.full_trip_routes ++
                     [{ customer := c, trips := trips, pallets_per_trip := Q,
                        trip_cost := trip_cost, total_cost := trips * trip_cost,
                        route := [0, c, 0] }] }
      else acc
    if 0 < rem then
      { acc1 with remaining_customers := acc1.remaining_customers ++ [c],
                  remaining_demands := acc1.remaining_demands ++ [rem],
                  orig_customer_of_node := acc1.orig_customer_of_node ++ [c] }
    else acc1

/-- The `enumerate(pallet_counts)` loop of `group_pallet_demands`, with `c`
the 1-based id of the first customer of the remaining list. -/
def group_go (D : Nat → Nat → Int) (Q : Int) (treat : Bool) :
    Nat → List Int → GroupingResult → GroupingResult
  | _, [], acc => acc
  | c, p :: rest, acc =>
    group_go D Q treat (c + 1) rest (group_step D Q treat c p acc)

/-- Embedding of `group_pallet_demands`: pallet counts indexed by
customer−1 (customers are 1..N), `D` the original distance matrix with
index 0 the depot. -/
def group_pallet_demands (pallet_counts : List Int) (D : Nat → Nat → Int)
    (vehicle_capacity : Int) (treat_equal_capacity_as_fixed : Bool) :
    GroupingResult :=
  group_go D vehicle_capacity treat_equal_capacity_as_fixed 1 pallet_counts
    emptyGroupingResult

/-- Embedding of `build_reduced_vrp_instance`: submatrix extraction by
double indexing with `nodes = [0] + remaining_customers`. -/
def build_reduced_vrp_instance (original_distance : Nat → Nat → Int)
    (remaining_customers : List Nat) (remaining_demands : List Int)
    (vehicle_capacity : Int) : VRPInstance :=
  let nodes := 0 :: remaining_customers
  { N := remaining_customers.length,
    Capacity := vehicle_capacity,
    Demand := remaining_demands,
    Distance := nodes.map (fun i => nodes.map (fun j => original_distance i j)) }

/-- The `objective_breakdown` dict and solution record assembled by
`solve_bpcsdvrp_grouped_heuristic` (the `GroupedHeuristicSolution`
dataclass, with the breakdown flattened into three fields). -/
structure GroupedHeuristicSolution where
  packing : List CustomerPacking
  grouping : GroupingResult
  vrp_instance : Option VRPInstance
  vrp_result : Option SolveResult
  fixed_cost : Int
  routing_objective : Option Int
  total_objective : Option Int
deriving DecidableEq

/-- The `SolveResult` returned by the pipeline (status, has_solution,
objective, structured solution; wall-clock time omitted). -/
structure PipelineResult where
  status : String
  has_solution : Bool
  objective : Option Int
  solution : GroupedHeuristicSolution
deriving DecidableEq

/-- Embedding of stages 2–4 of `solve_bpcsdvrp_grouped_heuristic`: the
per-customer packing rows of stage 1 are taken as input (their external
solves already performed), and the reduced-VRP MiniZinc run is the oracle
`vrpSolve`. -/
def solve_bpcsdvrp_grouped_heuristic (packing_rows : List CustomerPacking)
    (D : Nat → Nat → Int) (Q : Int) (treat_equal_capacity_as_fixed : Bool)
    (vrpSolve : VRPInstance → SolveResult) : PipelineResult :=
  let pallet_counts := packing_rows.map (fun p => p.pallets)
  let grouping :=
    group_pallet_demands pallet_counts D Q treat_equal_capacity_as_fixed
  let fixed_cost := grouping.fixed_cost
  if 0 < grouping.remaining_customers.length then
    let vrp_inst := build_reduced_vrp_instance D grouping.remaining_customers
      grouping.remaining_demands Q
    let vrp_res := vrpSolve vrp_inst
    if vrp_res.has_solution = true ∧ vrp_res.objective.isSome = true then
      let robj := vrp_res.objective.getD 0
      { status := vrp_res.status, has_solution := true,
        objective := some (fixed_cost + robj),
        solution := { packing := packing_rows, grouping := grouping,
                      vrp_instance := some vrp_inst, vrp_result := some vrp_res,
                      fixed_cost := fixed_cost,
                      routing_objective := some robj,
                      total_objective := some (fixed_cost + robj) } }
    else
      { status := vrp_res.status, has_solution := false, objective := none,
        solution := { packing := packing_rows, grouping := grouping,
                      vrp_instance := some vrp_inst, vrp_result := some vrp_res,
                      fixed_cost := fixed_cost,
                      routing_objective := none, total_objective := none } }
  else
    { status := "SATISFIED", has_solution := true,
      objective := some fixed_cost,
      solution := { packing := packing_rows, grouping := grouping,
                    vrp_instance := none, vrp_result := none,
                    fixed_cost := fixed_cost,
                    routing_objective := some 0,
                    total_objective := some fixed_cost } }

/-- `_extract_bpp_objective` from `bpcvrp_grouped_heuristic.py`: objective
first, then the `nBins` and `objective` solution keys. -/
def extract_bpp_objective (res : SolveResult) : Option Int :=
  match res.objective with
  | some x => some x
  | none =>
    match res.solution with
    | some s =>
      match s.nBins with
      | some v => some v
      | none => s.objVal
    | none => none

/-- Embedding of `solve_bpp_for_customer` from `bpcvrp_grouped_heuristic.py`
(the variant returning a bare pallet count): filters non-positive sizes,
short-circuits the empty list, and falls back to `len(sizes)` under the
`"worst"` policy or to the volume lower bound otherwise. -/
def solve_bpp_for_customer_grouped (solver : List Int → SolveResult)
    (sizes : List Int) (bin_capacity : Int) (fallback : String) : Int :=
  let sizes := sizes.filter (fun s => 0 < s)
  if sizes = [] then 0
  else
    let res := solver sizes
    match extract_bpp_objective res with
    | some pallets => pallets
    | none =>
      if fallback = "worst" then (sizes.length : Int)
      else ceil_div sizes.sum bin_capacity

/-- Embedding of the `PalletisationStats` dataclass. -/
structure PalletisationStats where
  pallets_per_customer : List Int
  full_trips_per_customer : List Int
  remainder_per_customer : List Int
  fixed_cost : Int
  remaining_customer_ids : List Nat
  remaining_demands : List Int
deriving DecidableEq

/-- The accumulator state at the top of the `palletise_and_group` loop. -/
def emptyPalletisation : PalletisationStats :=
  { pallets_per_customer := [], full_trips_per_customer := [],
    remainder_per_customer := [], fixed_cost := 0,
    remaining_customer_ids := [], remaining_demands := [] }

/-- Body of the `palletise_and_group` loop for customer `c` with resolved
pallet count `pallets`: split into `pallets // Capacity` full trips (each
costed `2 * Distance[0][c]`) and the remainder `pallets % Capacity`. -/
def palletise_step (Capacity : Int) (D : Nat → Nat → Int) (c : Nat)
    (pallets : Int) (acc : PalletisationStats) : PalletisationStats :=
  let full_trips := Int.fdiv pallets Capacity
  let rem := Int.fmod pallets Capacity
  let acc0 :=
    { acc with pallets_per_customer := acc.pallets_per_customer ++ [pallets],
               full_trips_per_customer := acc.full_trips_per_customer ++ [full_trips],
               remainder_per_customer := acc.remainder_per_customer ++ [rem] }
  let acc1 :=
    if 0 < full_trips then
      { acc0 with fixed_cost := acc0.fixed_cost + full_trips * (2 * D 0 c) }
    else acc0
  if 0 < rem then
    { acc1 with remaining_customer_ids := acc1.remaining_customer_ids ++ [c],
                remaining_demands := acc1.remaining_demands ++ [rem] }
  else acc1

/-- The `for c in range(1, N + 1)` loop of `palletise_and_group`, `k`
customers left starting at customer `c`, with `pallets_of` the per-customer
pallet resolution. -/
def palletise_go (Capacity : Int) (D : Nat → Nat → Int)
    (pallets_of : Nat → Int) : Nat → Nat → PalletisationStats → PalletisationStats
  | _, 0, acc => acc
  | c, Nat.succ k, acc =>
    palletise_go Capacity D pallets_of (c + 1) k
      (palletise_step Capacity D c (pallets_of c) acc)

/-- Embedding of `palletise_and_group` from `bpcvrp_grouped_heuristic.py`;
the per-customer BPP MiniZinc run is the oracle `solver`. -/
def palletise_and_group (N : Nat) (Capacity : Int) (D : Nat → Nat → Int)
    (ItemsPerCustomer : List Nat) (SizesOfItems : List (List Int))
    (binCapacity : Int) (solver : List Int → SolveResult) (fallback : String) :
    PalletisationStats :=
  palletise_go Capacity D
    (fun c => solve_bpp_for_customer_grouped solver
      ((SizesOfItems.getD (c - 1) []).take (ItemsPerCustomer.getD (c - 1) 0))
      binCapacity fallback)
    1 N emptyPalletisation

/-- Specification measure for pallet conservation: the pallets committed to
full trips plus the pallets left as residual demand. -/
def conserved_pallets (Q : Int) (r : GroupingResult) : Int :=
  (r.full_trips.map (fun ct => ct.2 * Q)).sum + r.remaining_demands.sum

/-- Specification measure for the fixed cost: the round-trip cost of each
recorded full trip, weighted by its trip count. -/
def fixed_cost_spec (D : Nat → Nat → Int) (r : GroupingResult) : Int :=
  (r.full_trips.map (fun ct => ct.2 * (D 0 ct.1 + D ct.1 0))).sum

/-- A concrete packing row with 1 resolved pallet, used in witnesses. -/
def packing_row_one : CustomerPacking :=
  { customer := 1, item_sizes := [1], pallets := 1,
    bpp_status := "OPTIMAL_SOLUTION", bpp_time := 0,
    bin_of_item := none, pallets_items := none }

/-- A concrete packing row with 2 resolved pallets, used in witnesses. -/
def packing_row_two : CustomerPacking :=
  { customer := 1, item_sizes := [1, 1], pallets := 2,
    bpp_status := "OPTIMAL_SOLUTION", bpp_time := 0,
    bin_of_item := none, pallets_items := none }

/-- A concrete packing row with 4 resolved pallets, used in witnesses. -/
def packing_row_four : CustomerPacking :=
  { customer := 1, item_sizes := [1, 1, 1, 1], pallets := 4,
    bpp_status := "OPTIMAL_SOLUTION", bpp_time := 0,
    bin_of_item := none, pallets_items := none }

/-- A routing oracle that reports UNKNOWN with no solution, used in
witnesses. -/
def failing_vrp_solver : VRPInstance → SolveResult := fun _ =>
  { status := "UNKNOWN", has_solution := false, objective := none,
    solution := none, time := 0 }

/-- A packing oracle that reports an objective of 2 pallets, used in
witnesses. -/
def two_pallet_bpp_solver : List Int → SolveResult := fun _ =>
  { status := "OPTIMAL_SOLUTION", has_solution := true, objective := some 2,
    solution := none, time := 0 }

/-- A packing oracle that reports UNKNOWN with no solution and no objective,
used in witnesses. -/
def failing_bpp_solver : List Int → SolveResult := fun _ =>
  { status := "UNKNOWN", has_solution := false, objective := none,
    solution := none, time := 0 }

/-- One grouping step moves exactly `p` pallets into full trips plus
residual demand: the conservation measure grows by `p`. -/
theorem group_step_conserved (D : Nat → Nat → Int) (Q : Int) (treat : Bool)
    (c : Nat) (p : Int) (acc : GroupingResult) (hQ : 0 < Q) (hp : 0 ≤ p) :
    conserved_pallets Q (group_step D Q treat c p acc) =
      conserved_pallets Q acc + p := by
  unfold group_step
  by_cases hA : p ≤ Q ∧ ¬(treat = true ∧ p = Q)
  · rw [if_pos hA]
    by_cases hp0 : 0 < p
    · rw [if_pos hp0]
      simp [conserved_pallets]
      omega
    · rw [if_neg hp0]
      have hz : p = 0 := le_antisymm (not_lt.mp hp0) hp
      simp [conserved_pallets, hz]
  · rw [if_neg hA]
    have hp0 : ¬ p = 0 := by
      rintro rfl
      exact hA ⟨le_of_lt hQ, by rintro ⟨_, h⟩; omega⟩
    rw [if_neg hp0]
    simp only [if_pos hQ]
    by_cases hTQ : treat = true ∧ p = Q
    · simp only [if_pos hTQ]
      rw [if_pos (by norm_num : (0 : Int) < 1), if_neg (by norm_num : ¬ (0 : Int) < 0)]
      simp [conserved_pallets]
      omega
    · simp only [if_neg hTQ]
      have hPQ : Q < p := by
        rcases not_and_or.mp hA with h | h
        · exact lt_of_not_le h
        · exact absurd (not_not.mp h) hTQ
      rw [Int.fdiv_eq_ediv _ (le_of_lt hQ), Int.fmod_eq_emod _ (le_of_lt hQ)]
      have htr : 0 < p / Q := by
        have : (1 : Int) ≤ p / Q :=
          (Int.le_ediv_iff_mul_le hQ).mpr (by omega)
        omega
      rw [if_pos htr]
      have key : Q * (p / Q) + p % Q = p := Int.ediv_add_emod p Q
      by_cases hrem : 0 < p % Q
      · rw [if_pos hrem]
        simp [conserved_pallets]
        linarith [key]
      · rw [if_neg hrem]
        have hz : p % Q = 0 :=
          le_antisymm (not_lt.mp hrem) (Int.emod_nonneg p (ne_of_gt hQ))
        simp [conserved_pallets]
        linarith [key, hz]

/-- The grouping loop adds the total pallet count of the customers it
consumes to the conservation measure. -/
theorem group_go_conserved (D : Nat → Nat → Int) (Q : Int) (treat : Bool)
    (l : List Int) :
    ∀ (c : Nat) (acc : GroupingResult), 0 < Q → (∀ p ∈ l, 0 ≤ p) →
      conserved_pallets Q (group_go D Q treat c l acc) =
        conserved_pallets Q acc + l.sum := by
  induction l with
  | nil =>
    intro c acc _ _
    simp [group_go]
  | cons p rest ih =>
    intro c acc hQ hp
    simp only [group_go]
    rw [ih (c + 1) _ hQ (fun q hq => hp q (List.mem_cons_of_mem _ hq)),
        group_step_conserved D Q treat c p acc hQ (hp p (List.mem_cons_self _ _)),
        List.sum_cons]
    omega

/-- C1. Pallet conservation: for every list of non-negative pallet counts,
every positive vehicle capacity and both values of the
`treat_equal_capacity_as_fixed` flag, the output of `group_pallet_demands`
satisfies `sum(full_trips[c] * Capacity) + sum(remaining_demands) =
sum(pallet_counts)` exactly — no pallet is lost or duplicated. -/
theorem claim1_pallet_conservation (pallet_counts : List Int)
    (D : Nat → Nat → Int) (Q : Int) (treat : Bool)
    (hQ : 0 < Q) (hp : ∀ p ∈ pallet_counts, 0 ≤ p) :
    ((group_pallet_demands pallet_counts D Q treat).full_trips.map
        (fun ct => ct.2 * Q)).sum
      + (group_pallet_demands pallet_counts D Q treat).remaining_demands.sum
      = pallet_counts.sum := by
  have h := group_go_conserved D Q treat pallet_counts 1 emptyGroupingResult hQ hp
  simpa [group_pallet_demands, conserved_pallets, emptyGroupingResult] using h

/-- Witness for C1 at `pallet_counts = [5, 1, 2]`, `Capacity = 2`,
default flag. -/
theorem claim1_pallet_conservation_witness :
    (0 : Int) < 2 ∧ (∀ p ∈ [(5 : Int), 1, 2], 0 ≤ p) ∧
    ((group_pallet_demands [5, 1, 2] (fun _ _ => 3) 2 false).full_trips.map
        (fun ct => ct.2 * 2)).sum
      + (group_pallet_demands [5, 1, 2] (fun _ _ => 3) 2 false).remaining_demands.sum
      = ([(5 : Int), 1, 2]).sum :=
  ⟨by norm_num, by decide,
    claim1_pallet_conservation [5, 1, 2] (fun _ _ => 3) 2 false (by norm_num)
      (by decide)⟩

/-- One grouping step keeps `fixed_cost` equal to the trip-weighted
round-trip cost of the recorded full trips. -/
theorem group_step_fixed_cost (D : Nat → Nat → Int) (Q : Int) (treat : Bool)
    (c : Nat) (p : Int) (acc : GroupingResult)
    (h : acc.fixed_cost = fixed_cost_spec D acc) :
    (group_step D Q treat c p acc).fixed_cost =
      fixed_cost_spec D (group_step D Q treat c p acc) := by
  unfold group_step
  by_cases hA : p ≤ Q ∧ ¬(treat = true ∧ p = Q)
  · rw [if_pos hA]
    by_cases hp0 : 0 < p
    · rw [if_pos hp0]
      simpa [fixed_cost_spec] using h
    · rw [if_neg hp0]
      exact h
  · rw [if_neg hA]
    by_cases hp0 : p = 0
    · rw [if_pos hp0]
      exact h
    · rw [if_neg hp0]
      by_cases hTQ : treat = true ∧ p = Q
      · simp only [if_pos hTQ]
        rw [if_pos (by norm_num : (0 : Int) < 1),
            if_neg (by norm_num : ¬ (0 : Int) < 0)]
        simp [fixed_cost_spec] at h ⊢
        linarith [h]
      · simp only [if_neg hTQ]
        by_cases htr : 0 < (if 0 < Q then Int.fdiv p Q else 0)
        · rw [if_pos htr]
          by_cases hrem : 0 < (if 0 < Q then Int.fmod p Q else p)
          · rw [if_pos hrem]
            simp [fixed_cost_spec] at h ⊢
            linarith [h]
          · rw [if_neg hrem]
            simp [fixed_cost_spec] at h ⊢
            linarith [h]
        · rw [if_neg htr]
          by_cases hrem : 0 < (if 0 < Q then Int.fmod p Q else p)
          · rw [if_pos hrem]
            simpa [fixed_cost_spec] using h
          · rw [if_neg hrem]
            exact h

/-- The grouping loop preserves the fixed-cost invariant. -/
theorem group_go_fixed_cost (D : Nat → Nat → Int) (Q : Int) (treat : Bool)
    (l : List Int) :
    ∀ (c : Nat) (acc : GroupingResult),
      acc.fixed_cost = fixed_cost_spec D acc →
      (group_go D Q treat c l acc).fixed_cost =
        fixed_cost_spec D (group_go D Q treat c l acc) := by
  induction l with
  | nil =>
    intro c acc h
    simpa [group_go] using h
  | cons p rest ih =>
    intro c acc h
    simp only [group_go]
    exact ih (c + 1) _ (group_step_fixed_cost D Q treat c p acc h)

/-- C3. Fixed-cost formula: for every list of non-negative pallet counts and
positive capacity, the `fixed_cost` computed by `group_pallet_demands`
equals the sum, over the customers `c` recorded with at least one full trip,
of `full_trips[c] * (Distance[0][c] + Distance[c][0])`. -/
theorem claim3_fixed_cost_formula (pallet_counts : List Int)
    (D : Nat → Nat → Int) (Q : Int) (treat : Bool)
    (hQ : 0 < Q) (hp : ∀ p ∈ pallet_counts, 0 ≤ p) :
    (group_pallet_demands pallet_counts D Q treat).fixed_cost =
      ((group_pallet_demands pallet_counts D Q treat).full_trips.map
        (fun ct => ct.2 * (D 0 ct.1 + D ct.1 0))).sum := by
  have h := group_go_fixed_cost D Q treat pallet_counts 1 emptyGroupingResult
    (by simp [emptyGroupingResult, fixed_cost_spec])
  simpa [group_pallet_demands, fixed_cost_spec] using h

/-- Witness for C3 at `pallet_counts = [5, 1, 2]`, `Capacity = 2`,
default flag. -/
theorem claim3_fixed_cost_formula_witness :
    (0 : Int) < 2 ∧ (∀ p ∈ [(5 : Int), 1, 2], 0 ≤ p) ∧
    (group_pallet_demands [5, 1, 2] (fun i j => (i + 2 * j : Int)) 2 false).fixed_cost =
      ((group_pallet_demands [5, 1, 2] (fun i j => (i + 2 * j : Int)) 2 false).full_trips.map
        (fun ct => ct.2 * ((fun i j => (i + 2 * j : Int)) 0 ct.1
          + (fun i j => (i + 2 * j : Int)) ct.1 0))).sum :=
  ⟨by norm_num, by decide,
    claim3_fixed_cost_formula [5, 1, 2] (fun i j => (i + 2 * j : Int)) 2 false
      (by norm_num) (by decide)⟩

/-- Under the default policy, a pallet count within capacity is kept as a
single residual demand (or dropped when non-positive). -/
theorem group_step_default_within (D : Nat → Nat → Int) (Q : Int) (c : Nat)
    (p : Int) (acc : GroupingResult) (h : p ≤ Q) :
    group_step D Q false c p acc =
      if 0 < p then
        { acc with remaining_customers := acc.remaining_customers ++ [c],
                   remaining_demands := acc.remaining_demands ++ [p],
                   orig_customer_of_node := acc.orig_customer_of_node ++ [c] }
      else acc := by
  unfold group_step
  rw [if_pos ⟨h, by simp⟩]

/-- Under the default policy, a run of the loop over counts all within
capacity records no full trips, no fixed cost, and one residual per
positive count. -/
theorem group_go_default_within_capacity (D : Nat → Nat → Int) (Q : Int)
    (l : List Int) :
    ∀ (c : Nat) (acc : GroupingResult), (∀ p ∈ l, p ≤ Q) →
      (group_go D Q false c l acc).full_trips = acc.full_trips ∧
      (group_go D Q false c l acc).fixed_cost = acc.fixed_cost ∧
      (group_go D Q false c l acc).remaining_demands =
        acc.remaining_demands ++ l.filter (fun p => 0 < p) := by
  induction l with
  | nil =>
    intro c acc _
    simp [group_go]
  | cons p rest ih =>
    intro c acc hp
    simp only [group_go]
    rw [group_step_default_within D Q c p acc (hp p (List.mem_cons_self _ _))]
    by_cases hp0 : 0 < p
    · rw [if_pos hp0]
      obtain ⟨h1, h2, h3⟩ := ih (c + 1) _
        (fun q hq => hp q (List.mem_cons_of_mem _ hq))
      refine ⟨by simpa using h1, by simpa using h2, ?_⟩
      rw [h3]
      simp [List.filter_cons, hp0]
    · rw [if_neg hp0]
      obtain ⟨h1, h2, h3⟩ := ih (c + 1) _
        (fun q hq => hp q (List.mem_cons_of_mem _ hq))
      refine ⟨h1, h2, ?_⟩
      rw [h3]
      simp [List.filter_cons, hp0]

/-- C2 (amended). Default equal-capacity policy in
`group_pallet_demands` (the sequential variant, the one carrying the
`treat_equal_capacity_as_fixed` flag): when every pallet count satisfies
`0 ≤ p ≤ Capacity` and the flag is not set, grouping records no full trip
and no fixed cost, and emits exactly one residual entry of value `p` per
customer with `p > 0` (none for `p = 0`); in particular `p = Capacity` is
routed as a full-capacity residual.  (The sibling variant
`palletise_and_group`, which has no such flag, instead converts
`p = Capacity` into one fixed trip — see the counterexample.) -/
theorem claim2_default_equal_capacity (pallet_counts : List Int)
    (D : Nat → Nat → Int) (Q : Int) (hQ : 0 < Q)
    (hp : ∀ p ∈ pallet_counts, 0 ≤ p ∧ p ≤ Q) :
    (group_pallet_demands pallet_counts D Q false).full_trips = [] ∧
    (group_pallet_demands pallet_counts D Q false).fixed_cost = 0 ∧
    (group_pallet_demands pallet_counts D Q false).remaining_demands =
      pallet_counts.filter (fun p => 0 < p) := by
  have h := group_go_default_within_capacity D Q pallet_counts 1
    emptyGroupingResult (fun p hp' => (hp p hp').2)
  simpa [group_pallet_demands, emptyGroupingResult] using h

/-- Witness for C2 (amended) at `pallet_counts = [2, 0, 1]`, `Capacity = 2`:
the count equal to capacity stays a residual demand of 2. -/
theorem claim2_default_equal_capacity_witness :
    (0 : Int) < 2 ∧ (∀ p ∈ [(2 : Int), 0, 1], 0 ≤ p ∧ p ≤ 2) ∧
    ((group_pallet_demands [2, 0, 1] (fun _ _ => 5) 2 false).full_trips = [] ∧
     (group_pallet_demands [2, 0, 1] (fun _ _ => 5) 2 false).fixed_cost = 0 ∧
     (group_pallet_demands [2, 0, 1] (fun _ _ => 5) 2 false).remaining_demands =
       ([2, 0, 1] : List Int).filter (fun p => 0 < p)) :=
  ⟨by norm_num, by decide,
    claim2_default_equal_capacity [2, 0, 1] (fun _ _ => 5) 2 (by norm_num)
      (by decide)⟩

/-- Counterexample to C2 as stated over its cited sources: in
`palletise_and_group` of `bpcvrp_grouped_heuristic.py` (which has no
`treat_equal_capacity_as_fixed` parameter at all) a customer whose pallet
count is exactly `Capacity = 2` is converted into one fixed depot trip with
no residual entry, not routed as a full-capacity residual demand. -/
theorem claim2_counterexample :
    (palletise_and_group 1 2 (fun _ _ => 4) [1] [[2]] 2 two_pallet_bpp_solver
        "volume_lb").pallets_per_customer = [2] ∧
    (palletise_and_group 1 2 (fun _ _ => 4) [1] [[2]] 2 two_pallet_bpp_solver
        "volume_lb").full_trips_per_customer = [1] ∧
    (palletise_and_group 1 2 (fun _ _ => 4) [1] [[2]] 2 two_pallet_bpp_solver
        "volume_lb").remaining_demands = [] ∧
    ¬ (palletise_and_group 1 2 (fun _ _ => 4) [1] [[2]] 2 two_pallet_bpp_solver
        "volume_lb").remaining_demands = [2] := by
  decide

/-- One grouping step appends the same ids to `orig_customer_of_node` and
`remaining_customers`. -/
theorem group_step_orig_eq (D : Nat → Nat → Int) (Q : Int) (treat : Bool)
    (c : Nat) (p : Int) (acc : GroupingResult)
    (h : acc.orig_customer_of_node = acc.remaining_customers) :
    (group_step D Q treat c p acc).orig_customer_of_node =
      (group_step D Q treat c p acc).remaining_customers := by
  unfold group_step
  by_cases hA : p ≤ Q ∧ ¬(treat = true ∧ p = Q)
  · rw [if_pos hA]
    by_cases hp0 : 0 < p
    · rw [if_pos hp0]
      simp [h]
    · rw [if_neg hp0]
      exact h
  · rw [if_neg hA]
    by_cases hp0 : p = 0
    · rw [if_pos hp0]
      exact h
    · rw [if_neg hp0]
      by_cases hTQ : treat = true ∧ p = Q
      · simp only [if_pos hTQ]
        rw [if_pos (by norm_num : (0 : Int) < 1),
            if_neg (by norm_num : ¬ (0 : Int) < 0)]
        exact h
      · simp only [if_neg hTQ]
        by_cases htr : 0 < (if 0 < Q then Int.fdiv p Q else 0)
        · rw [if_pos htr]
          by_cases hrem : 0 < (if 0 < Q then Int.fmod p Q else p)
          · rw [if_pos hrem]
            simp [h]
          · rw [if_neg hrem]
            exact h
        · rw [if_neg htr]
          by_cases hrem : 0 < (if 0 < Q then Int.fmod p Q else p)
          · rw [if_pos hrem]
            simp [h]
          · rw [if_neg hrem]
            exact h

/-- The grouping loop keeps `orig_customer_of_node` and
`remaining_customers` identical. -/
theorem group_go_orig_eq (D : Nat → Nat → Int) (Q : Int) (treat : Bool)
    (l : List Int) :
    ∀ (c : Nat) (acc : GroupingResult),
      acc.orig_customer_of_node = acc.remaining_customers →
      (group_go D Q treat c l acc).orig_customer_of_node =
        (group_go D Q treat c l acc).remaining_customers := by
  induction l with
  | nil =>
    intro c acc h
    simpa [group_go] using h
  | cons p rest ih =>
    intro c acc h
    simp only [group_go]
    exact ih (c + 1) _ (group_step_orig_eq D Q treat c p acc h)

/-- C6. Submatrix round-trip: the reduced distance matrix is the exact
double-indexed submatrix of the original, `Distance_rem[i][j] =
Distance[nodes[i]][nodes[j]]` with `nodes = 0 :: remaining_customers`, and
the node map of the grouping output satisfies `orig_customer_of_node[k] =
remaining_customers[k-1]` for every reduced node `k` (the two lists are
equal, entry by entry). -/
theorem claim6_submatrix_roundtrip :
    (∀ (pallet_counts : List Int) (D : Nat → Nat → Int) (Q : Int)
      (treat : Bool),
      (group_pallet_demands pallet_counts D Q treat).orig_customer_of_node =
        (group_pallet_demands pallet_counts D Q treat).remaining_customers) ∧
    (∀ (D : Nat → Nat → Int) (rem : List Nat) (dem : List Int) (Q : Int)
      (i j : Nat) (hi : i < (0 :: rem).length) (hj : j < (0 :: rem).length),
      (((build_reduced_vrp_instance D rem dem Q).Distance.get? i).bind
          (fun row => row.get? j)) =
        some (D ((0 :: rem).get ⟨i, hi⟩) ((0 :: rem).get ⟨j, hj⟩))) := by
  constructor
  · intro pallet_counts D Q treat
    exact group_go_orig_eq D Q treat pallet_counts 1 emptyGroupingResult rfl
  · intro D rem dem Q i j hi hj
    have h1 : (0 :: rem).get? i = some ((0 :: rem).get ⟨i, hi⟩) :=
      List.get?_eq_get hi
    have h2 : (0 :: rem).get? j = some ((0 :: rem).get ⟨j, hj⟩) :=
      List.get?_eq_get hj
    simp only [build_reduced_vrp_instance, List.get?_map, h1, h2,
      Option.map_some', Option.some_bind]

/-- Witness for C6 at `remaining_customers = [3, 1]`, `i = 1`, `j = 2`:
`Distance_rem[1][2] = Distance[3][1]`. -/
theorem claim6_submatrix_roundtrip_witness :
    (group_pallet_demands [5, 1, 2] (fun _ _ => 7) 2 false).orig_customer_of_node =
      (group_pallet_demands [5, 1, 2] (fun _ _ => 7) 2 false).remaining_customers ∧
    (((build_reduced_vrp_instance (fun i j => (10 * i + j : Int)) [3, 1] [1, 1] 2).Distance.get? 1).bind
        (fun row => row.get? 2)) =
      some ((fun i j => (10 * i + j : Int)) ((0 :: [3, 1]).get ⟨1, by decide⟩)
        ((0 :: [3, 1]).get ⟨2, by decide⟩)) :=
  ⟨claim6_submatrix_roundtrip.1 [5, 1, 2] (fun _ _ => 7) 2 false,
   claim6_submatrix_roundtrip.2 (fun i j => (10 * i + j : Int)) [3, 1] [1, 1] 2
     1 2 (by decide) (by decide)⟩

/-- Under the default policy a negative pallet count is silently dropped:
the grouping step leaves the accumulator unchanged. -/
theorem group_step_negative (D : Nat → Nat → Int) (Q : Int) (c : Nat)
    (p : Int) (acc : GroupingResult) (hp : p < 0) :
    group_step D Q false c p acc = acc := by
  unfold group_step
  have hTQ : ¬((false : Bool) = true ∧ p = Q) := by simp
  by_cases hA : p ≤ Q ∧ ¬((false : Bool) = true ∧ p = Q)
  · rw [if_pos hA, if_neg (by omega : ¬ (0 : Int) < p)]
  · rw [if_neg hA, if_neg (by omega : ¬ p = 0)]
    have hQp : Q < p := by
      rcases not_and_or.mp hA with h | h
      · exact lt_of_not_le h
      · exact absurd (not_not.mp h) hTQ
    have hQneg : ¬ (0 : Int) < Q := by omega
    simp only [if_neg hTQ, if_neg hQneg]
    rw [if_neg (by norm_num : ¬ (0 : Int) < 0), if_neg (by omega : ¬ (0 : Int) < p)]

/-- Under the default policy with a negative vehicle capacity, the grouping
step records no full trip and keeps each positive count as a residual. -/
theorem group_step_negative_capacity (D : Nat → Nat → Int) (Q : Int) (c : Nat)
    (p : Int) (acc : GroupingResult) (hQ : Q < 0) :
    group_step D Q false c p acc =
      if 0 < p then
        { acc with remaining_customers := acc.remaining_customers ++ [c],
                   remaining_demands := acc.remaining_demands ++ [p],
                   orig_customer_of_node := acc.orig_customer_of_node ++ [c] }
      else acc := by
  unfold group_step
  have hTQ : ¬((false : Bool) = true ∧ p = Q) := by simp
  by_cases hA : p ≤ Q ∧ ¬((false : Bool) = true ∧ p = Q)
  · have hpneg : ¬ (0 : Int) < p := by omega
    simp only [if_pos hA, if_neg hpneg]
  · rw [if_neg hA]
    have hQp : Q < p := by
      rcases not_and_or.mp hA with h | h
      · exact lt_of_not_le h
      · exact absurd (not_not.mp h) hTQ
    by_cases hp0 : p = 0
    · rw [if_pos hp0, if_neg (by omega : ¬ (0 : Int) < p)]
    · rw [if_neg hp0]
      have hQneg : ¬ (0 : Int) < Q := by omega
      simp only [if_neg hTQ, if_neg hQneg]
      rw [if_neg (by norm_num : ¬ (0 : Int) < 0)]

/-- The grouping loop over only-negative counts (default policy) is the
identity on the accumulator. -/
theorem group_go_negative (D : Nat → Nat → Int) (Q : Int) (l : List Int) :
    ∀ (c : Nat) (acc : GroupingResult), (∀ p ∈ l, p < 0) →
      group_go D Q false c l acc = acc := by
  induction l with
  | nil =>
    intro c acc _
    simp [group_go]
  | cons p rest ih =>
    intro c acc hp
    simp only [group_go]
    rw [group_step_negative D Q c p acc (hp p (List.mem_cons_self _ _))]
    exact ih (c + 1) acc (fun q hq => hp q (List.mem_cons_of_mem _ hq))

/-- The grouping loop under a negative capacity (default policy) records no
full trips and keeps exactly the positive counts as residuals. -/
theorem group_go_negative_capacity (D : Nat → Nat → Int) (Q : Int)
    (l : List Int) (hQ : Q < 0) :
    ∀ (c : Nat) (acc : GroupingResult),
      (group_go D Q false c l acc).full_trips = acc.full_trips ∧
      (group_go D Q false c l acc).fixed_cost = acc.fixed_cost ∧
      (group_go D Q false c l acc).remaining_demands =
        acc.remaining_demands ++ l.filter (fun p => 0 < p) := by
  induction l with
  | nil =>
    intro c acc
    simp [group_go]
  | cons p rest ih =>
    intro c acc
    simp only [group_go]
    rw [group_step_negative_capacity D Q c p acc hQ]
    by_cases hp0 : 0 < p
    · rw [if_pos hp0]
      obtain ⟨h1, h2, h3⟩ := ih (c + 1) _
      refine ⟨by simpa using h1, by simpa using h2, ?_⟩
      rw [h3]
      simp [List.filter_cons, hp0]
    · rw [if_neg hp0]
      obtain ⟨h1, h2, h3⟩ := ih (c + 1) _
      refine ⟨h1, h2, ?_⟩
      rw [h3]
      simp [List.filter_cons, hp0]

/-- C7 (amended). `group_pallet_demands` performs no precondition check:
instead of rejecting a negative capacity or negative pallet counts, it
silently returns an ordinary `GroupingResult`.  Under the default policy,
(i) a call whose pallet counts are all negative returns the empty grouping
result (every negative count is dropped), and (ii) a call with a negative
capacity records no full trip and no fixed cost and keeps exactly the
positive counts as residual demands. -/
theorem claim7_no_precondition_check :
    (∀ (pallet_counts : List Int) (D : Nat → Nat → Int) (Q : Int),
      (∀ p ∈ pallet_counts, p < 0) →
      group_pallet_demands pallet_counts D Q false = emptyGroupingResult) ∧
    (∀ (pallet_counts : List Int) (D : Nat → Nat → Int) (Q : Int), Q < 0 →
      (group_pallet_demands pallet_counts D Q false).full_trips = [] ∧
      (group_pallet_demands pallet_counts D Q false).fixed_cost = 0 ∧
      (group_pallet_demands pallet_counts D Q false).remaining_demands =
        pallet_counts.filter (fun p => 0 < p)) := by
  constructor
  · intro pallet_counts D Q hp
    exact group_go_negative D Q pallet_counts 1 emptyGroupingResult hp
  · intro pallet_counts D Q hQ
    have h := group_go_negative_capacity D Q pallet_counts hQ 1
      emptyGroupingResult
    simpa [group_pallet_demands, emptyGroupingResult] using h

/-- Witness for C7 (amended) at `pallet_counts = [-2]` (all negative) and at
capacity `-1` with `pallet_counts = [1]`. -/
theorem claim7_no_precondition_check_witness :
    (∀ p ∈ [(-2 : Int)], p < 0) ∧
    group_pallet_demands [(-2 : Int)] (fun _ _ => 1) 3 false =
      emptyGroupingResult ∧
    (-1 : Int) < 0 ∧
    (group_pallet_demands [(1 : Int)] (fun _ _ => 1) (-1) false).remaining_demands =
      ([(1 : Int)]).filter (fun p => 0 < p) :=
  ⟨by decide,
   claim7_no_precondition_check.1 [(-2 : Int)] (fun _ _ => 1) 3 (by decide),
   by norm_num,
   (claim7_no_precondition_check.2 [(1 : Int)] (fun _ _ => 1) (-1)
     (by norm_num)).2.2⟩

/-- Counterexample to C7 as stated: at the negative pallet count `-1` (with
positive capacity 2, default policy) the grouping operation does not fail
fast; it silently returns the empty grouping result, on which the pallet
conservation sum is `0` while the input sum is `-1`. -/
theorem claim7_counterexample :
    group_pallet_demands [(-1 : Int)] (fun _ _ => 0) 2 false =
      emptyGroupingResult ∧
    ((group_pallet_demands [(-1 : Int)] (fun _ _ => 0) 2 false).full_trips.map
        (fun ct => ct.2 * 2)).sum
      + (group_pallet_demands [(-1 : Int)] (fun _ _ => 0) 2 false).remaining_demands.sum
      ≠ ([(-1 : Int)]).sum := by
  decide

/-- A pallet count that is an exact multiple of the (positive) capacity —
and is either not exactly the capacity or is handled under the
equal-capacity-as-fixed flag — adds no residual entry. -/
theorem group_step_multiple (D : Nat → Nat → Int) (Q : Int) (treat : Bool)
    (c : Nat) (p : Int) (acc : GroupingResult) (hQ : 0 < Q) (hp : 0 ≤ p)
    (hdvd : Q ∣ p) (hne : treat = true ∨ p ≠ Q) :
    (group_step D Q treat c p acc).remaining_customers =
      acc.remaining_customers := by
  unfold group_step
  by_cases hA : p ≤ Q ∧ ¬(treat = true ∧ p = Q)
  · rw [if_pos hA]
    have hp0 : ¬ 0 < p := by
      intro hpos
      have hge : Q ≤ p := Int.le_of_dvd hpos hdvd
      have hpq : p = Q := le_antisymm hA.1 hge
      rcases hne with ht | hneq
      · exact hA.2 ⟨ht, hpq⟩
      · exact hneq hpq
    rw [if_neg hp0]
  · rw [if_neg hA]
    by_cases hp0 : p = 0
    · rw [if_pos hp0]
    · rw [if_neg hp0]
      by_cases hTQ : treat = true ∧ p = Q
      · simp only [if_pos hTQ]
        rw [if_pos (by norm_num : (0 : Int) < 1),
            if_neg (by norm_num : ¬ (0 : Int) < 0)]
      · simp only [if_neg hTQ, if_pos hQ]
        have hrem0 : Int.fmod p Q = 0 := by
          rw [Int.fmod_eq_emod _ (le_of_lt hQ)]
          exact Int.emod_eq_zero_of_dvd hdvd
        rw [hrem0, if_neg (by norm_num : ¬ (0 : Int) < 0)]
        by_cases htr : 0 < Int.fdiv p Q
        · rw [if_pos htr]
        · rw [if_neg htr]

/-- The grouping loop over exact multiples of the capacity leaves the
residual customer list unchanged. -/
theorem group_go_multiples (D : Nat → Nat → Int) (Q : Int) (treat : Bool)
    (l : List Int) (hQ : 0 < Q) :
    ∀ (c : Nat) (acc : GroupingResult),
      (∀ p ∈ l, 0 ≤ p ∧ Q ∣ p ∧ (treat = true ∨ p ≠ Q)) →
      (group_go D Q treat c l acc).remaining_customers =
        acc.remaining_customers := by
  induction l with
  | nil =>
    intro c acc _
    simp [group_go]
  | cons p rest ih =>
    intro c acc hp
    simp only [group_go]
    obtain ⟨h0, hdvd, hne⟩ := hp p (List.mem_cons_self _ _)
    rw [ih (c + 1) _ (fun q hq => hp q (List.mem_cons_of_mem _ hq)),
        group_step_multiple D Q treat c p acc hQ h0 hdvd hne]

/-- C4 (amended). Empty reduced instance: when every pallet count is an
exact non-negative multiple of the positive capacity and, additionally,
either the `treat_equal_capacity_as_fixed` flag is set or no count equals
the capacity exactly, grouping leaves `remaining_customers` empty, the
routing oracle is never consulted (the result, with `vrp_result = none`,
is the same for every routing solver), and the reported objective is
exactly the fixed cost with a successful has-solution status.  (Without
the extra condition the claim fails: under the default flag a count equal
to the capacity is kept as a residual — see the counterexample.) -/
theorem claim4_empty_reduced_instance (packing_rows : List CustomerPacking)
    (D : Nat → Nat → Int) (Q : Int) (treat : Bool)
    (vrpSolve : VRPInstance → SolveResult) (hQ : 0 < Q)
    (hp : ∀ pk ∈ packing_rows, 0 ≤ pk.pallets ∧ Q ∣ pk.pallets ∧
      (treat = true ∨ pk.pallets ≠ Q)) :
    (group_pallet_demands (packing_rows.map (fun p => p.pallets)) D Q
        treat).remaining_customers = [] ∧
    (solve_bpcsdvrp_grouped_heuristic packing_rows D Q treat
        vrpSolve).has_solution = true ∧
    (solve_bpcsdvrp_grouped_heuristic packing_rows D Q treat
        vrpSolve).objective =
      some (group_pallet_demands (packing_rows.map (fun p => p.pallets)) D Q
        treat).fixed_cost ∧
    (solve_bpcsdvrp_grouped_heuristic packing_rows D Q treat
        vrpSolve).solution.vrp_result = none ∧
    (solve_bpcsdvrp_grouped_heuristic packing_rows D Q treat
        vrpSolve).solution.total_objective =
      some (group_pallet_demands (packing_rows.map (fun p => p.pallets)) D Q
        treat).fixed_cost := by
  have hall : ∀ p ∈ packing_rows.map (fun p => p.pallets),
      0 ≤ p ∧ Q ∣ p ∧ (treat = true ∨ p ≠ Q) := by
    intro p hp'
    obtain ⟨pk, hpk, rfl⟩ := List.mem_map.mp hp'
    exact hp pk hpk
  have hrem : (group_pallet_demands (packing_rows.map (fun p => p.pallets)) D Q
      treat).remaining_customers = [] := by
    have h := group_go_multiples D Q treat
      (packing_rows.map (fun p => p.pallets)) hQ 1 emptyGroupingResult hall
    simpa [group_pallet_demands, emptyGroupingResult] using h
  refine ⟨hrem, ?_, ?_, ?_, ?_⟩ <;>
    simp [solve_bpcsdvrp_grouped_heuristic, hrem]

/-- Witness for C4 (amended) at one customer with 4 pallets, capacity 2. -/
theorem claim4_empty_reduced_instance_witness :
    (0 : Int) < 2 ∧
    (∀ pk ∈ [packing_row_four],
      0 ≤ pk.pallets ∧ (2 : Int) ∣ pk.pallets ∧
        ((false : Bool) = true ∨ pk.pallets ≠ 2)) ∧
    (solve_bpcsdvrp_grouped_heuristic [packing_row_four]
        (fun _ _ => 3) 2 false failing_vrp_solver).objective =
      some (group_pallet_demands ([packing_row_four].map (fun p => p.pallets))
        (fun _ _ => 3) 2 false).fixed_cost :=
  ⟨by norm_num, by decide,
    (claim4_empty_reduced_instance [packing_row_four] (fun _ _ => 3) 2 false
      failing_vrp_solver (by norm_num) (by decide)).2.2.1⟩

/-- Counterexample to C4 as stated: with `Capacity = 2` and the single
pallet count 2 — an exact multiple of the capacity — the default policy
keeps customer 1 as a residual, so `remaining_customers` is not empty and
the routing stage is not skipped (here a failing router makes the pipeline
report no solution instead of the fixed cost). -/
theorem claim4_counterexample :
    ¬ ((group_pallet_demands ([packing_row_two].map (fun p => p.pallets))
        (fun _ _ => 3) 2 false).remaining_customers = []) ∧
    (solve_bpcsdvrp_grouped_heuristic [packing_row_two]
        (fun _ _ => 3) 2 false failing_vrp_solver).has_solution = false := by
  decide

/-- C5. Routing failure surfaced, never silent: when the reduced instance is
non-empty and the routing oracle reports no solution (or no objective), the
pipeline returns a result with null objective and `has_solution = false`,
null `routing_objective` and `total_objective` in the breakdown, while the
packing rows, the grouping result and the raw routing outcome are all still
populated in the returned solution.  (The embedding is a total function, so
the result is returned, not raised.) -/
theorem claim5_routing_failure_surfaced (packing_rows : List CustomerPacking)
    (D : Nat → Nat → Int) (Q : Int) (treat : Bool)
    (vrpSolve : VRPInstance → SolveResult)
    (hrem : (group_pallet_demands (packing_rows.map (fun p => p.pallets)) D Q
      treat).remaining_customers ≠ [])
    (hfail :
      (vrpSolve (build_reduced_vrp_instance D
        (group_pallet_demands (packing_rows.map (fun p => p.pallets)) D Q
          treat).remaining_customers
        (group_pallet_demands (packing_rows.map (fun p => p.pallets)) D Q
          treat).remaining_demands Q)).has_solution = false ∨
      (vrpSolve (build_reduced_vrp_instance D
        (group_pallet_demands (packing_rows.map (fun p => p.pallets)) D Q
          treat).remaining_customers
        (group_pallet_demands (packing_rows.map (fun p => p.pallets)) D Q
          treat).remaining_demands Q)).objective = none) :
    (solve_bpcsdvrp_grouped_heuristic packing_rows D Q treat
        vrpSolve).objective = none ∧
    (solve_bpcsdvrp_grouped_heuristic packing_rows D Q treat
        vrpSolve).has_solution = false ∧
    (solve_bpcsdvrp_grouped_heuristic packing_rows D Q treat
        vrpSolve).solution.total_objective = none ∧
    (solve_bpcsdvrp_grouped_heuristic packing_rows D Q treat
        vrpSolve).solution.routing_objective = none ∧
    (solve_bpcsdvrp_grouped_heuristic packing_rows D Q treat
        vrpSolve).solution.packing = packing_rows ∧
    (solve_bpcsdvrp_grouped_heuristic packing_rows D Q treat
        vrpSolve).solution.grouping =
      group_pallet_demands (packing_rows.map (fun p => p.pallets)) D Q treat ∧
    (solve_bpcsdvrp_grouped_heuristic packing_rows D Q treat
        vrpSolve).solution.vrp_result =
      some (vrpSolve (build_reduced_vrp_instance D
        (group_pallet_demands (packing_rows.map (fun p => p.pallets)) D Q
          treat).remaining_customers
        (group_pallet_demands (packing_rows.map (fun p => p.pallets)) D Q
          treat).remaining_demands Q)) := by
  have hlen : 0 < (group_pallet_demands
      (packing_rows.map (fun p => p.pallets)) D Q
      treat).remaining_customers.length := List.length_pos.mpr hrem
  have hcond : ¬ ((vrpSolve (build_reduced_vrp_instance D
      (group_pallet_demands (packing_rows.map (fun p => p.pallets)) D Q
        treat).remaining_customers
      (group_pallet_demands (packing_rows.map (fun p => p.pallets)) D Q
        treat).remaining_demands Q)).has_solution = true ∧
      (vrpSolve (build_reduced_vrp_instance D
        (group_pallet_demands (packing_rows.map (fun p => p.pallets)) D Q
          treat).remaining_customers
        (group_pallet_demands (packing_rows.map (fun p => p.pallets)) D Q
          treat).remaining_demands Q)).objective.isSome = true) := by
    rintro ⟨h1, h2⟩
    rcases hfail with h | h
    · rw [h1] at h
      cases h
    · rw [h] at h2
      cases h2
  simp only [solve_bpcsdvrp_grouped_heuristic]
  rw [if_pos hlen, if_neg hcond]
  exact ⟨rfl, rfl, rfl, rfl, rfl, rfl, rfl⟩

/-- Witness for C5 at one customer with 1 pallet, capacity 2, and a routing
oracle reporting UNKNOWN with no solution. -/
theorem claim5_routing_failure_surfaced_witness :
    (group_pallet_demands ([packing_row_one].map (fun p => p.pallets))
        (fun _ _ => 2) 2 false).remaining_customers ≠ [] ∧
    (solve_bpcsdvrp_grouped_heuristic [packing_row_one]
        (fun _ _ => 2) 2 false failing_vrp_solver).objective = none ∧
    (solve_bpcsdvrp_grouped_heuristic [packing_row_one]
        (fun _ _ => 2) 2 false failing_vrp_solver).solution.packing =
      [packing_row_one] :=
  ⟨by decide,
   (claim5_routing_failure_surfaced [packing_row_one] (fun _ _ => 2) 2 false
      failing_vrp_solver (by decide) (Or.inl (by decide))).1,
   (claim5_routing_failure_surfaced [packing_row_one] (fun _ _ => 2) 2 false
      failing_vrp_solver (by decide) (Or.inl (by decide))).2.2.2.2.1⟩

/-- A list whose entries are bounded by `b` sums to at most `length * b`. -/
theorem sum_le_length_mul (l : List Int) (b : Int) (h : ∀ s ∈ l, s ≤ b) :
    l.sum ≤ (l.length : Int) * b := by
  induction l with
  | nil => simp
  | cons s rest ih =>
    simp only [List.sum_cons, List.length_cons]
    have h1 := h s (List.mem_cons_self _ _)
    have h2 := ih (fun q hq => h q (List.mem_cons_of_mem _ hq))
    have h3 : ((rest.length + 1 : Nat) : Int) * b = (rest.length : Int) * b + b := by
      push_cast
      ring
    rw [h3]
    linarith

/-- A non-empty list of positive integers sums to at least 1. -/
theorem one_le_sum_of_pos (l : List Int) (hne : l ≠ []) (h : ∀ s ∈ l, 0 < s) :
    1 ≤ l.sum := by
  cases l with
  | nil => exact absurd rfl hne
  | cons s rest =>
    simp only [List.sum_cons]
    have h1 := h s (List.mem_cons_self _ _)
    have h2 : 0 ≤ rest.sum :=
      List.sum_nonneg (fun q hq => le_of_lt (h q (List.mem_cons_of_mem _ hq)))
    omega

/-- Ceiling division is bounded by any `n` with `a ≤ n * b`. -/
theorem ceil_div_le_of_le (a b n : Int) (hb : 0 < b) (h : a ≤ n * b) :
    ceil_div a b ≤ n := by
  unfold ceil_div
  have h1 : a + b - 1 ≤ (b - 1) + n * b := by omega
  calc (a + b - 1) / b ≤ ((b - 1) + n * b) / b := Int.ediv_le_ediv hb h1
    _ = (b - 1) / b + n := Int.add_mul_ediv_right _ _ (ne_of_gt hb)
    _ = 0 + n := by rw [Int.ediv_eq_zero_of_lt (by omega) (by omega)]
    _ = n := by ring

/-- Ceiling division of a positive numerator is at least 1. -/
theorem one_le_ceil_div (a b : Int) (hb : 0 < b) (h : 1 ≤ a) :
    1 ≤ ceil_div a b := by
  unfold ceil_div
  calc (1 : Int) = b / b := (Int.ediv_self (ne_of_gt hb)).symm
    _ ≤ (a + b - 1) / b := Int.ediv_le_ediv hb (by omega)

/-- C8. Fallback monotonicity: for every non-empty item list of positive
sizes each at most the positive bin capacity, the `items_ub` fallback value
(the number of items) is at least the `volume_lb` fallback value
`ceil(sum(sizes) / bin_capacity)`, which is at least 1. -/
theorem claim8_fallback_monotonicity (item_sizes : List Int)
    (bin_capacity : Int) (hne : item_sizes ≠ []) (hcap : 0 < bin_capacity)
    (hs : ∀ s ∈ item_sizes, 0 < s ∧ s ≤ bin_capacity) :
    volume_lb_fallback item_sizes bin_capacity ≤ items_ub_fallback item_sizes ∧
    1 ≤ volume_lb_fallback item_sizes bin_capacity := by
  constructor
  · unfold volume_lb_fallback items_ub_fallback
    exact ceil_div_le_of_le _ _ _ hcap
      (sum_le_length_mul item_sizes bin_capacity (fun s h => (hs s h).2))
  · unfold volume_lb_fallback
    exact one_le_ceil_div _ _ hcap
      (one_le_sum_of_pos item_sizes hne (fun s h => (hs s h).1))

/-- Witness for C8 at `item_sizes = [2, 3]`, `bin_capacity = 3`. -/
theorem claim8_fallback_monotonicity_witness :
    ([(2 : Int), 3]) ≠ [] ∧ (0 : Int) < 3 ∧
    (∀ s ∈ [(2 : Int), 3], 0 < s ∧ s ≤ 3) ∧
    (volume_lb_fallback [2, 3] 3 ≤ items_ub_fallback [2, 3] ∧
      1 ≤ volume_lb_fallback [2, 3] 3) :=
  ⟨by decide, by norm_num, by decide,
    claim8_fallback_monotonicity [2, 3] 3 (by decide) (by norm_num) (by decide)⟩

/-- C9. Empty-order short-circuit: a customer with an empty item list gets a
pallet count of 0 without any solver call — in the sequential variant the
returned row has status `SKIPPED_EMPTY` and elapsed time 0, and the result
is the same for every packing oracle; likewise the grouped variant returns
0 whenever the filtered size list is empty, for every oracle. -/
theorem claim9_empty_order_short_circuit (solver : List Int → SolveResult)
    (customer : Nat) (bin_capacity : Int) (fallback : String)
    (solver2 : List Int → SolveResult) (sizes : List Int)
    (bin_capacity2 : Int) (fallback2 : String)
    (hfilt : sizes.filter (fun s => 0 < s) = []) :
    solve_bpp_for_customer solver customer [] bin_capacity fallback =
      { customer := customer, item_sizes := [], pallets := 0,
        bpp_status := "SKIPPED_EMPTY", bpp_time := 0,
        bin_of_item := some [], pallets_items := some [] } ∧
    solve_bpp_for_customer_grouped solver2 sizes bin_capacity2 fallback2 = 0 := by
  constructor
  · simp [solve_bpp_for_customer]
  · simp only [solve_bpp_for_customer_grouped, hfilt]
    simp

/-- Witness for C9: the sequential variant on an empty list and the grouped
variant on `[0, -1]` (filtered empty), each with an oracle that would claim
5 pallets if it were ever consulted. -/
theorem claim9_empty_order_short_circuit_witness :
    (([0, -1] : List Int).filter (fun s => 0 < s) = []) ∧
    solve_bpp_for_customer
        (fun _ => { status := "OPTIMAL_SOLUTION", has_solution := true,
                    objective := some 5, solution := none, time := 9 })
        7 [] 4 "items_ub" =
      { customer := 7, item_sizes := [], pallets := 0,
        bpp_status := "SKIPPED_EMPTY", bpp_time := 0,
        bin_of_item := some [], pallets_items := some [] } ∧
    solve_bpp_for_customer_grouped
        (fun _ => { status := "OPTIMAL_SOLUTION", has_solution := true,
                    objective := some 5, solution := none, time := 9 })
        [0, -1] 4 "volume_lb" = 0 :=
  ⟨by decide,
   (claim9_empty_order_short_circuit
      (fun _ => { status := "OPTIMAL_SOLUTION", has_solution := true,
                  objective := some 5, solution := none, time := 9 })
      7 4 "items_ub"
      (fun _ => { status := "OPTIMAL_SOLUTION", has_solution := true,
                  objective := some 5, solution := none, time := 9 })
      [0, -1] 4 "volume_lb" (by decide)).1,
   (claim9_empty_order_short_circuit
      (fun _ => { status := "OPTIMAL_SOLUTION", has_solution := true,
                  objective := some 5, solution := none, time := 9 })
      7 4 "items_ub"
      (fun _ => { status := "OPTIMAL_SOLUTION", has_solution := true,
                  objective := some 5, solution := none, time := 9 })
      [0, -1] 4 "volume_lb" (by decide)).2⟩

/-- C10 (implicit). In the sequential packing resolver, when the external
solver yields no pallet count, every fallback string other than exactly
`"volume_lb"` — including misspellings and the sibling variant's name
`"worst"` — selects the `items_ub` behaviour (pallet count = number of
items), with the fallback name spliced into the status; no fallback name is
ever rejected (the dispatch is total over all strings). -/
theorem claim10_fallback_string_dispatch (solver : List Int → SolveResult)
    (customer : Nat) (item_sizes : List Int) (bin_capacity : Int)
    (fallback : String) (hne : item_sizes ≠ [])
    (hnone : extract_nbins (solver item_sizes) = none)
    (hfb : fallback ≠ "volume_lb") :
    (solve_bpp_for_customer solver customer item_sizes bin_capacity
        fallback).pallets = (item_sizes.length : Int) ∧
    (solve_bpp_for_customer solver customer item_sizes bin_capacity
        fallback).bpp_status =
      (solver item_sizes).status ++ " (fallback=" ++ fallback ++ ")" := by
  unfold solve_bpp_for_customer
  rw [if_neg hne]
  simp only [hnone]
  simp [fallback_pallets, items_ub_fallback, hfb]

/-- Witness for C10 with the sibling variant's fallback name `"worst"` and a
solver returning UNKNOWN without a solution: 2 items give 2 pallets. -/
theorem claim10_fallback_string_dispatch_witness :
    ([(5 : Int), 7]) ≠ [] ∧
    extract_nbins (failing_bpp_solver [5, 7]) = none ∧
    ("worst" : String) ≠ "volume_lb" ∧
    (solve_bpp_for_customer failing_bpp_solver 1 [5, 7] 10 "worst").pallets =
      (([(5 : Int), 7]).length : Int) ∧
    (solve_bpp_for_customer failing_bpp_solver 1 [5, 7] 10 "worst").bpp_status =
      (failing_bpp_solver [5, 7]).status ++ " (fallback=" ++ "worst" ++ ")" :=
  ⟨by decide, by decide, by decide,
   (claim10_fallback_string_dispatch failing_bpp_solver 1 [5, 7] 10 "worst"
      (by decide) (by decide) (by decide)).1,
   (claim10_fallback_string_dispatch failing_bpp_solver 1 [5, 7] 10 "worst"
      (by decide) (by decide) (by decide)).2⟩

end BPCVRP
